import Mathlib

/-!
Verification of the FedaPay payment-reconciliation core of the e-learning
platform (`e_learning_app/views.py`): webhook signature parsing and
verification, webhook event processing, the user-facing callback, payment
initiation, and the manual payment correction view.

Python semantics used by the code are embedded explicitly: `a or b`
falls through on falsy values (None / empty string), `str.strip` removes
surrounding whitespace, `str.partition` splits at the first separator,
and HMAC-SHA256 is abstracted as an opaque keyed digest function passed
as a parameter.
-/

namespace ELearning

/-- Truthiness of an optional string, as Python sees it: `None` and `""`
are falsy, every other string is truthy. -/
def truthy : Option String → Bool
  | none => false
  | some s => !(s = "")

/-- Python `a or b` restricted to optional strings: yields `a` when it is
truthy, otherwise `b`. -/
def pyOr (a b : Option String) : Option String :=
  if truthy a then a else b

/-- Whitespace characters removed by Python `str.strip()`. -/
def isPyWhitespace (c : Char) : Bool :=
  c = ' ' || c = '\t' || c = '\n' || c = '\r' || c = '\x0b' || c = '\x0c'

/-- Remove leading and trailing characters satisfying `p`. -/
def stripList (p : Char → Bool) (l : List Char) : List Char :=
  ((l.dropWhile p).reverse.dropWhile p).reverse

/-- Python `str.strip()` on a string. -/
def pyStrip (s : String) : String :=
  ⟨stripList isPyWhitespace s.toList⟩

/-- Python `str.strip('"')` on a string. -/
def stripQuotes (s : String) : String :=
  ⟨stripList (fun c => c = '"') s.toList⟩

/-- `re.split(r"[;,]", s)`: split at every comma or semicolon, keeping
empty pieces. -/
def splitDelims : List Char → List (List Char)
  | [] => [[]]
  | c :: rest =>
    if c = ';' ∨ c = ',' then
      [] :: splitDelims rest
    else
      match splitDelims rest with
      | [] => [[c]]
      | h :: t => (c :: h) :: t

/-- Python `str.partition("=")`, returning the part before the first `=`
and the part after it (the remainder is empty when no `=` occurs). -/
def partitionEq : List Char → List Char × List Char
  | [] => ([], [])
  | c :: rest =>
    if c = '=' then ([], rest)
    else
      let (a, b) := partitionEq rest
      (c :: a, b)

/-- One raw header part, turned into a `(key, value)` pair exactly as the
loop body of `_parse_fedapay_signature_header` does:
`key, _, value = p.strip().partition("=")` then
`value = value.strip().strip('"')`. -/
def processPart (part : List Char) : String × String :=
  let s := stripList isPyWhitespace part
  let (k, v) := partitionEq s
  (⟨k⟩, stripQuotes (pyStrip ⟨v⟩))

/-- Hexadecimal digit as matched by `[0-9a-fA-F]`. -/
def isHexChar (c : Char) : Bool :=
  c.isDigit || ('a' ≤ c && c ≤ 'f') || ('A' ≤ c && c ≤ 'F')

/-- `re.search(r"[0-9a-fA-F]{64}", s)`: the leftmost run of exactly 64
hexadecimal characters, if any. -/
def findHex64 : List Char → Option (List Char)
  | [] => none
  | c :: rest =>
    let cand := (c :: rest).take 64
    if cand.length = 64 ∧ cand.all isHexChar then some cand
    else findHex64 rest

/-- The accumulation loop of `_parse_fedapay_signature_header`: scan the
`(key, value)` pairs, remembering the timestamp (`t`) and the signature
(`v1`, with `v0` or any other non-`t` pair as fallback while no truthy
signature has been seen). -/
def parseKVs : List (String × String) → Option String → Option String →
    Option String × Option String
  | [], ts, sig => (ts, sig)
  | (k, v) :: rest, ts, sig =>
    if k = "t" then parseKVs rest (some v) sig
    else if k = "v1" then parseKVs rest ts (some v)
    else if k = "v0" ∧ ¬ truthy sig then parseKVs rest ts (some v)
    else if k ≠ "" ∧ v ≠ "" ∧ ¬ truthy sig then parseKVs rest ts (some v)
    else parseKVs rest ts sig

/-- `_parse_fedapay_signature_header`: extract `(timestamp, signature)`
from the `x-fedapay-signature` header. -/
def parse_fedapay_signature_header (h : String) : Option String × Option String :=
  if h = "" then (none, none)
  else
    let kvs := (splitDelims h.toList).map processPart
    let (ts, sig) := parseKVs kvs none none
    let sig :=
      if truthy sig then sig
      else
        match findHex64 h.toList with
        | some m => some ⟨m⟩
        | none => sig
    (ts, sig)

/-- The digit body accepted by Python `int()`: decimal digits with single
underscores allowed strictly between digits. -/
def pyDigitsOk : List Char → Bool
  | [] => false
  | [c] => c.isDigit
  | c :: '_' :: rest => c.isDigit && pyDigitsOk rest
  | c :: c' :: rest => c.isDigit && pyDigitsOk (c' :: rest)

/-- Numeric value of a digit body (underscores skipped). -/
def pyDigitsVal (l : List Char) : Nat :=
  (l.filter (fun c => c ≠ '_')).foldl (fun a c => a * 10 + (c.toNat - 48)) 0

/-- Python `int(s)`: surrounding whitespace, an optional sign, then a
decimal digit body. -/
def pyParseInt (s : String) : Option Int :=
  match stripList isPyWhitespace s.toList with
  | '+' :: rest => if pyDigitsOk rest then some (pyDigitsVal rest) else none
  | '-' :: rest => if pyDigitsOk rest then some (-(pyDigitsVal rest : Int)) else none
  | l => if pyDigitsOk l then some (pyDigitsVal l) else none

/-- Python `str.lower()` (ASCII range; the compared values are hex
digests). -/
def pyLower (s : String) : String :=
  ⟨s.toList.map Char.toLower⟩

/-- `_compute_fedapay_signature`: the expected hex digest, namely
HMAC-SHA256 (abstracted as `hm`) keyed by the secret over
`"{timestamp}.{payload}"`. -/
def compute_fedapay_signature (hm : String → String → String)
    (payload : String) (timestamp : Int) (secret : String) : String :=
  hm secret (toString timestamp ++ "." ++ payload)

/-- `verify_signature_fedapay_v1`: check the `x-fedapay-signature` header
against the HMAC of the raw payload, keyed by the stripped
`FEDAPAY_AUTH_KEY` environment value. -/
def verify_signature_fedapay_v1 (hm : String → String → String)
    (env_auth_key : String) (payload : String)
    (signature_header : Option String) : Bool :=
  let webhook_secret := pyStrip env_auth_key
  if webhook_secret = "" then false
  else
    match signature_header with
    | none => false
    | some h =>
      if h = "" then false
      else
        match parse_fedapay_signature_header h with
        | (some ts, some sig) =>
          if ts = "" ∨ sig = "" then false
          else
            match pyParseInt ts with
            | none => false
            | some n =>
              pyLower (compute_fedapay_signature hm payload n webhook_secret)
                == pyLower sig
        | _ => false

/-- A `Payment` row: pk, foreign key to its enrollment, the external
transaction identifier, amount and status
(`pending`/`completed`/`failed`/`refunded`). -/
structure Payment where
  id : Nat
  enrollment_id : Nat
  transaction_id : String
  amount : Int
  status : String
deriving DecidableEq, Repr

/-- An `Enrollment` row: pk and status
(`pending`/`active`/`completed`/`dropped`). -/
structure Enrollment where
  id : Nat
  status : String
deriving DecidableEq, Repr

/-- The persistent state touched by the reconciliation views. -/
structure DB where
  payments : List Payment
  enrollments : List Enrollment
deriving DecidableEq, Repr

/-- `payment.status = 'completed'; payment.save()`: rewrite the row with
primary key `pid`. -/
def setPaymentCompleted (l : List Payment) (pid : Nat) : List Payment :=
  l.map (fun q => if q.id = pid then { q with status := "completed" } else q)

/-- `enroll.status = 'active'; enroll.save()`: rewrite the row with
primary key `eid`. -/
def setEnrollmentActive (l : List Enrollment) (eid : Nat) : List Enrollment :=
  l.map (fun q => if q.id = eid then { q with status := "active" } else q)

/-- The `entity` object nested in a webhook event. -/
structure FedaEntity where
  id : Option String
  status : Option String
deriving DecidableEq, Repr

/-- A decoded webhook JSON event: the keys the handler reads. -/
structure FedaEvent where
  name : Option String
  status : Option String
  id : Option String
  entity : Option FedaEntity
deriving DecidableEq, Repr

/-- An inbound webhook HTTP request: method, raw body, the
`x-fedapay-signature` header, and the result of `json.loads` on the body
(`none` when the body is not valid JSON). -/
structure WebhookRequest where
  is_post : Bool
  body : String
  sig_header : Option String
  event : Option FedaEvent
deriving Repr

/-- A webhook HTTP response: either `JsonResponse({"status": s}, status=c)`
or the plain `HttpResponseForbidden()` used for non-POST methods. -/
inductive WebhookResponse where
  | json (code : Nat) (status : String)
  | forbiddenHtml
deriving DecidableEq, Repr

/-- `fedapay_webhook`: validate the HMAC signature, then on an approved
event complete the matching payment and activate its enrollment.  Any
exception inside the handler (including the `Http404` raised by
`get_object_or_404` and the `MultipleObjectsReturned` of a non-unique
lookup) is caught and answered with `200 {"status":"ignored"}`. -/
def fedapay_webhook (hm : String → String → String) (env_auth_key : String)
    (db : DB) (req : WebhookRequest) : DB × WebhookResponse :=
  if ¬ req.is_post then (db, .forbiddenHtml)
  else if ¬ verify_signature_fedapay_v1 hm env_auth_key req.body req.sig_header then
    (db, .json 403 "forbidden")
  else
    match req.event with
    | none => (db, .json 200 "ignored")
    | some ev =>
      let event_name := ev.name.getD ""
      let entity := ev.entity.getD ⟨none, none⟩
      let status := pyOr ev.status entity.status
      let trans_id := pyOr ev.id entity.id
      if status = some "approved" ∨ event_name = "transaction.approved" then
        if ¬ truthy trans_id then (db, .json 200 "ignored")
        else
          let tid := trans_id.getD ""
          match db.payments.filter (fun p => p.transaction_id == tid) with
          | [p] =>
            let ps := setPaymentCompleted db.payments p.id
            match db.enrollments.find? (fun e => e.id == p.enrollment_id) with
            | none => ({ db with payments := ps }, .json 200 "ignored")
            | some e =>
              (⟨ps, setEnrollmentActive db.enrollments e.id⟩, .json 200 "received")
          | _ => (db, .json 200 "ignored")
      else (db, .json 200 "received")

/-- An inbound callback request: the four query parameters tried for the
transaction id, and the session fallback. -/
structure CallbackRequest where
  get_id : Option String
  get_transaction_id : Option String
  get_trans_id : Option String
  get_transaction : Option String
  session_tx : Option String
deriving Repr

/-- Transaction-id resolution at the top of `fedapay_callback`. -/
def resolve_callback_tx_id (req : CallbackRequest) : Option String :=
  let g := pyOr (pyOr (pyOr req.get_id req.get_transaction_id) req.get_trans_id)
    req.get_transaction
  if truthy g then g else req.session_tx

/-- Outcome of asking the gateway for a transaction: either the status
string extracted by `_extract_fedapay_status`, or a raised exception. -/
inductive GatewayResult where
  | ok (status : Option String)
  | err
deriving DecidableEq, Repr

/-- The response of `fedapay_callback`: where the user is redirected and
whether the generic success message was flashed. -/
structure CallbackResponse where
  redirect_to : String
  success_message : Bool
deriving DecidableEq, Repr

/-- `fedapay_callback`: best-effort reconciliation; every exception is
swallowed and the user always gets the generic success message and a
redirect to their courses. -/
def fedapay_callback (gateway : String → GatewayResult) (db : DB)
    (req : CallbackRequest) : DB × CallbackResponse :=
  let tx := resolve_callback_tx_id req
  let db' :=
    if truthy tx then
      let tid := tx.getD ""
      match gateway tid with
      | .err => db
      | .ok st =>
        if st = some "approved" ∨ st = some "completed" ∨ st = some "success" then
          match db.payments.find? (fun p => p.transaction_id == tid) with
          | none => db
          | some p =>
            let ps := setPaymentCompleted db.payments p.id
            match db.enrollments.find? (fun e => e.id == p.enrollment_id) with
            | none => { db with payments := ps }
            | some e => ⟨ps, setEnrollmentActive db.enrollments e.id⟩
        else db
    else db
  (db', ⟨"student_view_courses", true⟩)

/-- The shape of the value returned by `service.get_transaction_link`:
either a plain mapping or a Pydantic token object whose attributes are
read with `getattr`, with an optional `model_dump` rendering
`(url, payment_link, link)`. -/
inductive TokenData where
  | dict (url : Option String) (payment_link : Option String)
      (link : Option String)
  | obj (payment_link : Option String) (url : Option String)
      (link : Option String)
      (dump : Option (Option String × Option String × Option String))
deriving DecidableEq, Repr

/-- The redirect-URL extraction of `student_make_payment` (step 5). -/
def resolve_redirect_url : TokenData → Option String
  | .dict u pl l => pyOr (pyOr u pl) l
  | .obj pl u l dump =>
    let r := pyOr (pyOr pl u) l
    if truthy r then r
    else
      match dump with
      | some (du, dpl, dl) => pyOr (pyOr du dpl) dl
      | none => r

/-- Outcome of `student_make_payment` on POST after the remote
transaction has been created. -/
inductive PaymentOutcome where
  | redirect (url : String)
  | errorDashboard
deriving DecidableEq, Repr

/-- `student_make_payment` (POST path, after `create_transaction`
returned `tx_id`): create the local pending `Payment`, then resolve the
redirect URL from the transaction link data (`none` when fetching the
link raised).  A missing URL raises `AttributeError`, caught by the
outer handler which sends the user back to the dashboard. -/
def student_make_payment (db : DB) (enrollment_id : Nat) (course_fee : Int)
    (tx_id : String) (token : Option TokenData) (new_payment_id : Nat) :
    DB × PaymentOutcome :=
  let db1 : DB :=
    { db with payments :=
        db.payments ++ [⟨new_payment_id, enrollment_id, tx_id, course_fee, "pending"⟩] }
  match token with
  | none => (db1, .errorDashboard)
  | some td =>
    match resolve_redirect_url td with
    | some u => if u = "" then (db1, .errorDashboard) else (db1, .redirect u)
    | none => (db1, .errorDashboard)

/-- An inbound request to `manager_update_payment`: method, form
validity, and the status the form writes into the payment. -/
structure ManagerUpdateRequest where
  is_post : Bool
  form_valid : Bool
  new_status : String
deriving Repr

/-- The response of `manager_update_payment`. -/
inductive ManagerResponse where
  | redirectPayments
  | renderForm
deriving DecidableEq, Repr

/-- `manager_update_payment`: save the edited payment, and when its new
status is `completed` activate the enrollment if it is not already
active.  `none` models the `Http404` of `get_object_or_404` (or an
impossible broken foreign key). -/
def manager_update_payment (db : DB) (payment_id : Nat)
    (req : ManagerUpdateRequest) : Option (DB × ManagerResponse) :=
  match db.payments.filter (fun p => p.id == payment_id) with
  | [p] =>
    if req.is_post ∧ req.form_valid then
      let p' := { p with status := req.new_status }
      let ps := db.payments.map (fun q => if q.id = payment_id then p' else q)
      if p'.status = "completed" then
        match db.enrollments.find? (fun e => e.id == p.enrollment_id) with
        | some e =>
          if e.status ≠ "active" then
            some (⟨ps, setEnrollmentActive db.enrollments e.id⟩, .redirectPayments)
          else some ({ db with payments := ps }, .redirectPayments)
        | none => none
      else some ({ db with payments := ps }, .redirectPayments)
    else some (db, .renderForm)
  | _ => none

/-- Modelled from the spec's words (C2): an event is "recognized as
successful" when the top-level status or the nested entity status equals
`approved`, or the event name equals `transaction.approved`. -/
def claim_success_spec (ev : FedaEvent) : Bool :=
  ev.status == some "approved" ||
  (ev.entity.getD ⟨none, none⟩).status == some "approved" ||
  ev.name.getD "" == "transaction.approved"

/-- Modelled from the spec's words (C5): timestamp from key `t`,
signature from key `v1`, the value of `v0` accepted when `v1` is absent,
and any 64-hex-character substring of the raw header as a last resort
when structured parsing yields no signature. -/
def parse_fedapay_signature_header_spec (h : String) :
    Option String × Option String :=
  if h = "" then (none, none)
  else
    let kvs := (splitDelims h.toList).map processPart
    let ts := (kvs.filterMap (fun kv => if kv.1 = "t" then some kv.2 else none)).getLast?
    let v1 := (kvs.filterMap (fun kv => if kv.1 = "v1" then some kv.2 else none)).getLast?
    let v0 := (kvs.filterMap (fun kv => if kv.1 = "v0" then some kv.2 else none)).getLast?
    let sig :=
      match v1 with
      | some v => some v
      | none => v0
    (ts,
      if truthy sig then sig
      else
        match findHex64 h.toList with
        | some m => some ⟨m⟩
        | none => sig)

/-- One scan step of the amended header-parsing description: a `t` pair
sets the timestamp, a `v1` pair always sets the signature, and while no
truthy signature has been seen a `v0` pair or any other pair with
nonempty key and nonempty value sets it. -/
def stepAmended (acc : Option String × Option String) (kv : String × String) :
    Option String × Option String :=
  if kv.1 = "t" then (some kv.2, acc.2)
  else if kv.1 = "v1" then (acc.1, some kv.2)
  else if ¬ truthy acc.2 ∧ (kv.1 = "v0" ∨ (kv.1 ≠ "" ∧ kv.2 ≠ "")) then
    (acc.1, some kv.2)
  else acc

/-- The amended description of the header parser (C5 amended): scan the
delimited pairs with `stepAmended`, then fall back to the first
64-hex-character substring when the scan produced no truthy signature. -/
def parse_fedapay_signature_header_amended (h : String) :
    Option String × Option String :=
  if h = "" then (none, none)
  else
    let kvs := (splitDelims h.toList).map processPart
    let acc := kvs.foldl stepAmended (none, none)
    (acc.1,
      if truthy acc.2 then acc.2
      else
        match findHex64 h.toList with
        | some m => some ⟨m⟩
        | none => acc.2)

/-- Modelled from the spec's words (C6): try the field names `url`,
`payment_link`, `link` in that fixed priority order on either response
shape. -/
def resolve_redirect_url_spec : TokenData → Option String
  | .dict u pl l => pyOr (pyOr u pl) l
  | .obj pl u l _ => pyOr (pyOr u pl) l

/-- First truthy element of a Python `a or b or ... or z` chain (the
last element is returned as-is when none is truthy). -/
def firstTruthy : List (Option String) → Option String
  | [] => none
  | [o] => o
  | o :: rest => if truthy o then o else firstTruthy rest

/-- The amended redirect-URL resolution order (C6 amended): mappings try
`url`, `payment_link`, `link`; token objects try the attributes
`payment_link`, `url`, `link`, then fall back to the `model_dump`
rendering with `url`, `payment_link`, `link`. -/
def resolve_redirect_url_amended : TokenData → Option String
  | .dict u pl l => firstTruthy [u, pl, l]
  | .obj pl u l dump =>
    let r := firstTruthy [pl, u, l]
    if truthy r then r
    else
      match dump with
      | some (du, dpl, dl) => firstTruthy [du, dpl, dl]
      | none => r

/-- The write-ordering invariant of C8, phrased on states: every
enrollment that is active in `db1` but was not active (under its id) in
`db0` is backed by a completed payment for it in `db1`. -/
def activation_backed (db0 db1 : DB) : Prop :=
  ∀ e1 ∈ db1.enrollments, e1.status = "active" →
    (∀ e0 ∈ db0.enrollments, e0.id = e1.id → e0.status ≠ "active") →
    ∃ p ∈ db1.payments, p.enrollment_id = e1.id ∧ p.status = "completed"

/-- A concrete HMAC stand-in for witnesses: every digest is `"ab"`. -/
def sampleHm : String → String → String := fun _ _ => "ab"

/-- A state with no rows. -/
def emptyDb : DB := ⟨[], []⟩

/-- Counterexample data for C2: top-level status `declined` masks the
nested `approved` entity status. -/
def evC2 : FedaEvent :=
  ⟨none, some "declined", none, some ⟨some "tx1", some "approved"⟩⟩

/-- Counterexample state for C2: one pending payment for `tx1`. -/
def dbC2 : DB := ⟨[⟨1, 1, "tx1", 5000, "pending"⟩], [⟨1, "pending"⟩]⟩

/-- Counterexample request for C2, correctly signed under `sampleHm`. -/
def reqC2 : WebhookRequest := ⟨true, "b", some "t=1,v1=ab", some evC2⟩

/-- Counterexample event for C3: approved event for the unknown
transaction id `ghost`. -/
def evC3 : FedaEvent := ⟨some "transaction.approved", none, some "ghost", none⟩

/-- Counterexample state for C3: no payment has transaction id `ghost`. -/
def dbC3 : DB := ⟨[⟨1, 1, "tx1", 5000, "pending"⟩], [⟨1, "pending"⟩]⟩

/-- Counterexample request for C3, correctly signed under `sampleHm`. -/
def reqC3 : WebhookRequest := ⟨true, "b", some "t=1,v1=ab", some evC3⟩

/-- Witness request for C1. -/
def reqW1 : WebhookRequest := ⟨true, "b", some "t=1,v1=ab", none⟩

/-- Witness event for C2 amended: entity-status fallback applies (no
top-level status at all). -/
def evW2 : FedaEvent := ⟨none, none, none, some ⟨some "tx1", some "approved"⟩⟩

/-- Witness payment row for C2 amended. -/
def pW2 : Payment := ⟨1, 1, "tx1", 5000, "pending"⟩

/-- Witness enrollment row for C2 amended. -/
def eW2 : Enrollment := ⟨1, "pending"⟩

/-- Witness state for C2 amended. -/
def dbW2 : DB := ⟨[pW2], [eW2]⟩

/-- Witness request for C2 amended, correctly signed under `sampleHm`. -/
def reqW2 : WebhookRequest := ⟨true, "b", some "t=1,v1=ab", some evW2⟩

/-- Witness callback request for C3 amended: unknown transaction id. -/
def creqW3 : CallbackRequest := ⟨some "ghost", none, none, none, none⟩

/-- Witness callback request for C7. -/
def creqW7 : CallbackRequest := ⟨some "tx1", none, none, none, none⟩

/-- Witness gateway for C7: reports every transaction as approved. -/
def gatewayW7 : String → GatewayResult := fun _ => .ok (some "approved")

/-- Witness state for C7. -/
def dbW7 : DB := ⟨[⟨1, 1, "tx1", 5000, "pending"⟩], [⟨1, "pending"⟩]⟩

/-- Witness state for C8 (webhook path activates enrollment 1). -/
def dbW8 : DB := ⟨[⟨1, 1, "tx1", 5000, "pending"⟩], [⟨1, "pending"⟩]⟩

/-- Witness event for C8. -/
def evW8 : FedaEvent := ⟨some "transaction.approved", none, some "tx1", none⟩

/-- Witness request for C8, correctly signed under `sampleHm`. -/
def reqW8 : WebhookRequest := ⟨true, "b", some "t=1,v1=ab", some evW8⟩

/-- Witness request for C9: well-formed header, blank secret. -/
def reqW9 : WebhookRequest := ⟨true, "b", some "t=1,v1=ab", some evW8⟩

/-- Witness token for C6 amended: a mapping with only `payment_link`. -/
def tokenW6 : TokenData := .dict none (some "https://pay.example/1") none

/-- C9: if the webhook signing secret (`FEDAPAY_AUTH_KEY`) is unset or
blank (strips to the empty string), every webhook POST is rejected with
HTTP 403 `forbidden` and no state change, whatever header it carries. -/
theorem webhook_blank_secret_rejects_all (hm : String → String → String)
    (env_auth_key : String) (db : DB) (req : WebhookRequest)
    (hsecret : pyStrip env_auth_key = "") (hpost : req.is_post = true) :
    fedapay_webhook hm env_auth_key db req = (db, .json 403 "forbidden") := by
  have hv : verify_signature_fedapay_v1 hm env_auth_key req.body req.sig_header
      = false := by
    unfold verify_signature_fedapay_v1
    simp [hsecret]
  simp [fedapay_webhook, hpost, hv]

/-- Witness for C9: blank secret `" "`, a header that would otherwise
verify under `sampleHm`. -/
theorem webhook_blank_secret_rejects_all_witness :
    fedapay_webhook sampleHm " " emptyDb reqW9 = (emptyDb, .json 403 "forbidden") :=
  webhook_blank_secret_rejects_all sampleHm " " emptyDb reqW9 (by decide) rfl

/-- C1: for every POST body and signature header, the webhook rejects
with HTTP 403 `forbidden` and no state change whenever verification
fails, and verification succeeds exactly when the secret is non-blank,
the header parses to a timestamp and signature, the timestamp reads as
an integer `n`, and the provided signature equals — case-insensitively —
the abstract HMAC-SHA256 hex digest keyed by the stripped secret over
`"{n}.{raw_body}"`. -/
theorem webhook_signature_gate (hm : String → String → String)
    (env_auth_key : String) (db : DB) (req : WebhookRequest)
    (hpost : req.is_post = true) :
    (verify_signature_fedapay_v1 hm env_auth_key req.body req.sig_header = false →
      fedapay_webhook hm env_auth_key db req = (db, .json 403 "forbidden")) ∧
    (verify_signature_fedapay_v1 hm env_auth_key req.body req.sig_header = true ↔
      pyStrip env_auth_key ≠ "" ∧
      ∃ h ts sig n,
        req.sig_header = some h ∧
        parse_fedapay_signature_header h = (some ts, some sig) ∧
        ts ≠ "" ∧ sig ≠ "" ∧
        pyParseInt ts = some n ∧
        pyLower sig =
          pyLower (compute_fedapay_signature hm req.body n (pyStrip env_auth_key))) := by
  constructor
  · intro hv
    simp [fedapay_webhook, hpost, hv]
  · constructor
    · intro hv
      by_cases hs : pyStrip env_auth_key = ""
      · simp [verify_signature_fedapay_v1, hs] at hv
      · refine ⟨hs, ?_⟩
        cases hh : req.sig_header with
        | none => simp [verify_signature_fedapay_v1, hs, hh] at hv
        | some h =>
          by_cases hne : h = ""
          · simp [verify_signature_fedapay_v1, hs, hh, hne] at hv
          · cases hp : parse_fedapay_signature_header h with
            | mk tso sigo =>
              cases tso with
              | none => simp [verify_signature_fedapay_v1, hs, hh, hne, hp] at hv
              | some ts =>
                cases sigo with
                | none => simp [verify_signature_fedapay_v1, hs, hh, hne, hp] at hv
                | some sig =>
                  by_cases hts : ts = "" ∨ sig = ""
                  · simp [verify_signature_fedapay_v1, hs, hh, hne, hp, hts] at hv
                  · cases hn : pyParseInt ts with
                    | none =>
                      simp [verify_signature_fedapay_v1, hs, hh, hne, hp, hts, hn] at hv
                    | some n =>
                      simp [verify_signature_fedapay_v1, hs, hh, hne, hp, hts, hn] at hv
                      push_neg at hts
                      exact ⟨h, ts, sig, n, rfl, hp, hts.1, hts.2, hn, hv.symm⟩
    · rintro ⟨hs, h, ts, sig, n, hh, hp, hts, hsig, hn, heq⟩
      have hne : h ≠ "" := by
        intro e
        rw [e] at hp
        simp [parse_fedapay_signature_header] at hp
      unfold verify_signature_fedapay_v1
      simp [hs, hh, hne, hp, hts, hsig, hn, heq.symm]

/-- Witness for C1 at a concrete POST request. -/
theorem webhook_signature_gate_witness :
    (verify_signature_fedapay_v1 sampleHm "sek" reqW1.body reqW1.sig_header = false →
      fedapay_webhook sampleHm "sek" emptyDb reqW1 = (emptyDb, .json 403 "forbidden")) ∧
    (verify_signature_fedapay_v1 sampleHm "sek" reqW1.body reqW1.sig_header = true ↔
      pyStrip "sek" ≠ "" ∧
      ∃ h ts sig n,
        reqW1.sig_header = some h ∧
        parse_fedapay_signature_header h = (some ts, some sig) ∧
        ts ≠ "" ∧ sig ≠ "" ∧
        pyParseInt ts = some n ∧
        pyLower sig =
          pyLower (compute_fedapay_signature sampleHm reqW1.body n (pyStrip "sek"))) :=
  webhook_signature_gate sampleHm "sek" emptyDb reqW1 rfl

/-- C10: while no `v1` value has been seen, the parser takes the value
of any `key=value` pair whose key is not `t` (here `foo`) as the
signature, and this wins even over a later 64-hex-character substring
that the last-resort scan would otherwise pick up. -/
theorem parse_header_generic_key_fallback :
    parse_fedapay_signature_header "t=1,foo=bar" = (some "1", some "bar") ∧
    parse_fedapay_signature_header
        "t=1,foo=bar,0123456789abcdef0123456789abcdef0123456789abcdef0123456789abcdef"
      = (some "1", some "bar") := by decide

/-- C5 counterexample: on `"t=1,foo=bar"` the code takes `bar` — the
value of the unrelated key `foo` — as the signature, while the claimed
parsing (`t`/`v1`/`v0` plus 64-hex last resort) yields no signature. -/
theorem parse_header_spec_counterexample :
    parse_fedapay_signature_header "t=1,foo=bar" = (some "1", some "bar") ∧
    parse_fedapay_signature_header_spec "t=1,foo=bar" = (some "1", none) ∧
    parse_fedapay_signature_header "t=1,foo=bar" ≠
      parse_fedapay_signature_header_spec "t=1,foo=bar" := by decide

/-- The accumulation loop of the parser agrees with the amended
step-function description, from any starting accumulator. -/
theorem parseKVs_eq_foldl (kvs : List (String × String)) (ts sig : Option String) :
    parseKVs kvs ts sig = kvs.foldl stepAmended (ts, sig) := by
  induction kvs generalizing ts sig with
  | nil => rfl
  | cons kv rest ih =>
    obtain ⟨k, v⟩ := kv
    by_cases h1 : k = "t"
    · simp [parseKVs, stepAmended, h1, ih]
    · by_cases h2 : k = "v1"
      · simp [parseKVs, stepAmended, h1, h2, ih]
      · by_cases h3 : truthy sig
        · simp [parseKVs, stepAmended, h1, h2, h3, ih]
        · by_cases h4 : k = "v0"
          · simp [parseKVs, stepAmended, h1, h2, h3, h4, ih]
          · by_cases h5 : k ≠ "" ∧ v ≠ ""
            · simp [parseKVs, stepAmended, h1, h2, h3, h4, h5, ih]
            · simp [parseKVs, stepAmended, h1, h2, h3, h4, h5, ih]

/-- C5 (amended): the header parser splits on comma or semicolon,
takes the timestamp from `t` pairs and the signature from `v1` pairs
(a later `v1` overwriting), accepts — while no truthy signature has
been seen — the value of a `v0` pair or of any other pair with nonempty
key and value, and only then falls back to the first 64-hex-character
substring of the raw header. -/
theorem parse_header_amended_agrees (h : String) :
    parse_fedapay_signature_header h = parse_fedapay_signature_header_amended h := by
  unfold parse_fedapay_signature_header parse_fedapay_signature_header_amended
  by_cases hne : h = ""
  · simp [hne]
  · simp only [hne, if_neg]
    rw [parseKVs_eq_foldl]

/-- C2 counterexample: this correctly signed event is "recognized as
successful" by the claim's reading (nested entity status `approved`),
carries transaction id `tx1` with a matching pending payment, yet the
webhook answers `200 received` while leaving the payment `pending`:
the top-level status `declined` masks the nested `approved`. -/
theorem webhook_nested_status_counterexample :
    claim_success_spec evC2 = true ∧
    verify_signature_fedapay_v1 sampleHm "sek" reqC2.body reqC2.sig_header = true ∧
    fedapay_webhook sampleHm "sek" dbC2 reqC2 = (dbC2, .json 200 "received") ∧
    (fedapay_webhook sampleHm "sek" dbC2 reqC2).1.payments.map Payment.status
      = ["pending"] := by decide

/-- C3 counterexample: a correctly signed approved event whose
transaction id `ghost` matches no payment is answered `200 ignored`
(the `Http404` of `get_object_or_404` is swallowed by the blanket
`except`), not an error status; no records are created. -/
theorem webhook_unknown_tx_counterexample :
    verify_signature_fedapay_v1 sampleHm "sek" reqC3.body reqC3.sig_header = true ∧
    (dbC3.payments.filter (fun p => p.transaction_id == "ghost")) = [] ∧
    fedapay_webhook sampleHm "sek" dbC3 reqC3 = (dbC3, .json 200 "ignored") := by
  decide

/-- C2 (amended): for every verified webhook event that the code
recognizes as successful — top-level status (falling back to the nested
entity status when the top-level one is missing or falsy) equal to
`approved`, or event name equal to `transaction.approved` — if the
transaction identifier is absent nothing is modified and the response is
`200 ignored`; if it is present and matches exactly one Payment whose
enrollment exists, that payment is completed, the enrollment activated,
and the response is `200 received`. -/
theorem webhook_success_processing (hm : String → String → String)
    (env_auth_key : String) (db : DB) (req : WebhookRequest) (ev : FedaEvent)
    (hpost : req.is_post = true) (hev : req.event = some ev)
    (hsig : verify_signature_fedapay_v1 hm env_auth_key req.body req.sig_header = true)
    (hsucc : pyOr ev.status (ev.entity.getD ⟨none, none⟩).status = some "approved" ∨
      ev.name.getD "" = "transaction.approved") :
    (truthy (pyOr ev.id (ev.entity.getD ⟨none, none⟩).id) = false →
      fedapay_webhook hm env_auth_key db req = (db, .json 200 "ignored")) ∧
    (∀ p e,
      truthy (pyOr ev.id (ev.entity.getD ⟨none, none⟩).id) = true →
      db.payments.filter
          (fun q => q.transaction_id ==
            (pyOr ev.id (ev.entity.getD ⟨none, none⟩).id).getD "") = [p] →
      db.enrollments.find? (fun x => x.id == p.enrollment_id) = some e →
      fedapay_webhook hm env_auth_key db req =
        (⟨setPaymentCompleted db.payments p.id,
          setEnrollmentActive db.enrollments e.id⟩, .json 200 "received") ∧
      { p with status := "completed" } ∈
        (fedapay_webhook hm env_auth_key db req).1.payments ∧
      { e with status := "active" } ∈
        (fedapay_webhook hm env_auth_key db req).1.enrollments) := by
  constructor
  · intro htr
    simp [fedapay_webhook, hpost, hsig, hev, hsucc, htr]
  · intro p e htr hfil hfind
    have hmem : p ∈ db.payments := by
      have : p ∈ db.payments.filter
          (fun q => q.transaction_id ==
            (pyOr ev.id (ev.entity.getD ⟨none, none⟩).id).getD "") := by
        rw [hfil]; exact List.mem_singleton.mpr rfl
      exact List.mem_of_mem_filter this
    have heq : fedapay_webhook hm env_auth_key db req =
        (⟨setPaymentCompleted db.payments p.id,
          setEnrollmentActive db.enrollments e.id⟩, .json 200 "received") := by
      simp [fedapay_webhook, hpost, hsig, hev, hsucc, htr, hfil, hfind]
    refine ⟨heq, ?_, ?_⟩
    · rw [heq]
      have := List.mem_map_of_mem
        (fun q => if q.id = p.id then { q with status := "completed" } else q) hmem
      simpa [setPaymentCompleted] using this
    · rw [heq]
      have hmem2 : e ∈ db.enrollments := List.mem_of_find?_eq_some hfind
      have := List.mem_map_of_mem
        (fun q => if q.id = e.id then { q with status := "active" } else q) hmem2
      simpa [setEnrollmentActive] using this

/-- Witness for C2 amended: the entity-status fallback event completes
payment 1 and activates enrollment 1. -/
theorem webhook_success_processing_witness :
    fedapay_webhook sampleHm "sek" dbW2 reqW2 =
      (⟨setPaymentCompleted dbW2.payments pW2.id,
        setEnrollmentActive dbW2.enrollments eW2.id⟩, .json 200 "received") ∧
    { pW2 with status := "completed" } ∈
      (fedapay_webhook sampleHm "sek" dbW2 reqW2).1.payments ∧
    { eW2 with status := "active" } ∈
      (fedapay_webhook sampleHm "sek" dbW2 reqW2).1.enrollments :=
  (webhook_success_processing sampleHm "sek" dbW2 reqW2 evW2 rfl rfl (by decide)
    (Or.inl (by decide))).2 pW2 eW2 (by decide) (by decide) (by decide)

/-- C3 (amended): a correctly signed successful webhook event whose
transaction identifier matches no Payment leaves the state unchanged and
is answered `200 ignored` (the `Http404` is caught by the blanket
handler), creating no records; a callback whose resolved transaction id
matches no Payment silently no-ops for every gateway answer. -/
theorem unknown_transaction_behavior (hm : String → String → String)
    (env_auth_key : String) (db : DB) (req : WebhookRequest) (ev : FedaEvent)
    (hpost : req.is_post = true) (hev : req.event = some ev)
    (hsig : verify_signature_fedapay_v1 hm env_auth_key req.body req.sig_header = true)
    (hsucc : pyOr ev.status (ev.entity.getD ⟨none, none⟩).status = some "approved" ∨
      ev.name.getD "" = "transaction.approved")
    (hfil : db.payments.filter
        (fun q => q.transaction_id ==
          (pyOr ev.id (ev.entity.getD ⟨none, none⟩).id).getD "") = []) :
    fedapay_webhook hm env_auth_key db req = (db, .json 200 "ignored") ∧
    (∀ (g : String → GatewayResult) (cdb : DB) (creq : CallbackRequest)
        (tid : String),
      resolve_callback_tx_id creq = some tid →
      cdb.payments.find? (fun q => q.transaction_id == tid) = none →
      fedapay_callback g cdb creq = (cdb, ⟨"student_view_courses", true⟩)) := by
  constructor
  · by_cases htr : truthy (pyOr ev.id (ev.entity.getD ⟨none, none⟩).id)
    · simp [fedapay_webhook, hpost, hsig, hev, hsucc, htr, hfil]
    · simp [fedapay_webhook, hpost, hsig, hev, hsucc, htr]
  · intro g cdb creq tid hres hfind
    unfold fedapay_callback
    rw [hres]
    by_cases hne : tid = ""
    · simp [truthy, hne]
    · have htr : truthy (some tid) = true := by simp [truthy, hne]
      cases hg : g tid with
      | err => simp [htr, hg]
      | ok st =>
        by_cases hst : st = some "approved" ∨ st = some "completed" ∨
            st = some "success"
        · simp [htr, hg, hst, hfind]
        · simp [htr, hg, hst]

/-- Witness for C3 amended: the `ghost` event and an unknown-id
callback both leave the state untouched. -/
theorem unknown_transaction_behavior_witness :
    fedapay_webhook sampleHm "sek" dbC3 reqC3 = (dbC3, .json 200 "ignored") ∧
    fedapay_callback gatewayW7 dbC3 creqW3 =
      (dbC3, ⟨"student_view_courses", true⟩) := by
  have h := unknown_transaction_behavior sampleHm "sek" dbC3 reqC3 evC3 rfl rfl
    (by decide) (Or.inr (by decide)) (by decide)
  exact ⟨h.1, h.2 gatewayW7 dbC3 creqW3 "ghost" (by decide) (by decide)⟩

/-- C6 counterexample: on a token object exposing both `payment_link`
and `url`, the code resolves `payment_link` first, while the claimed
fixed priority order `url`, `payment_link`, `link` would resolve
`url`. -/
theorem redirect_url_order_counterexample :
    resolve_redirect_url (.obj (some "P") (some "U") none none) = some "P" ∧
    resolve_redirect_url_spec (.obj (some "P") (some "U") none none) = some "U" ∧
    resolve_redirect_url (.obj (some "P") (some "U") none none) ≠
      resolve_redirect_url_spec (.obj (some "P") (some "U") none none) := by
  decide

/-- A three-element Python `or` chain is the first truthy element. -/
theorem pyOr_chain3 (a b c : Option String) :
    pyOr (pyOr a b) c = firstTruthy [a, b, c] := by
  by_cases h1 : truthy a <;> by_cases h2 : truthy b <;>
    simp [pyOr, firstTruthy, h1, h2]

/-- C6 (amended): initiation appends exactly one pending Payment tagged
with the remote transaction id, touching nothing else, and that happens
whether or not a redirect URL is found; the redirect URL is the first
truthy of `url`, `payment_link`, `link` on a mapping, and on a token
object the first truthy of `payment_link`, `url`, `link` with a
`model_dump` fallback tried in the order `url`, `payment_link`, `link`;
when no URL is found (or the link fetch failed) the user is sent back to
the dashboard with an error. -/
theorem make_payment_behavior (db : DB) (enrollment_id : Nat)
    (course_fee : Int) (tx_id : String) (token : Option TokenData)
    (npid : Nat) :
    ((student_make_payment db enrollment_id course_fee tx_id token npid).1.payments =
      db.payments ++ [⟨npid, enrollment_id, tx_id, course_fee, "pending"⟩]) ∧
    ((student_make_payment db enrollment_id course_fee tx_id token npid).1.enrollments =
      db.enrollments) ∧
    (∀ td, token = some td →
      (truthy (resolve_redirect_url td) = true →
        (student_make_payment db enrollment_id course_fee tx_id token npid).2 =
          .redirect ((resolve_redirect_url td).getD "")) ∧
      (truthy (resolve_redirect_url td) = false →
        (student_make_payment db enrollment_id course_fee tx_id token npid).2 =
          .errorDashboard)) ∧
    (token = none →
      (student_make_payment db enrollment_id course_fee tx_id token npid).2 =
        .errorDashboard) ∧
    (∀ td, resolve_redirect_url td = resolve_redirect_url_amended td) := by
  refine ⟨?_, ?_, ?_, ?_, ?_⟩
  · cases token with
    | none => rfl
    | some td =>
      cases hr : resolve_redirect_url td with
      | none => simp [student_make_payment, hr]
      | some u => by_cases hu : u = "" <;> simp [student_make_payment, hr, hu]
  · cases token with
    | none => rfl
    | some td =>
      cases hr : resolve_redirect_url td with
      | none => simp [student_make_payment, hr]
      | some u => by_cases hu : u = "" <;> simp [student_make_payment, hr, hu]
  · intro td htok
    subst htok
    constructor
    · intro htr
      cases hr : resolve_redirect_url td with
      | none => rw [hr] at htr; simp [truthy] at htr
      | some u =>
        rw [hr] at htr
        have hu : ¬ u = "" := by simpa [truthy] using htr
        simp [student_make_payment, hr, hu]
    · intro htr
      cases hr : resolve_redirect_url td with
      | none => simp [student_make_payment, hr]
      | some u =>
        rw [hr] at htr
        have hu : u = "" := by simpa [truthy] using htr
        simp [student_make_payment, hr, hu]
  · intro htok
    subst htok
    rfl
  · intro td
    cases td with
    | dict u pl l => simpa [resolve_redirect_url, resolve_redirect_url_amended]
        using pyOr_chain3 u pl l
    | obj pl u l dump =>
      simp only [resolve_redirect_url, resolve_redirect_url_amended]
      rw [pyOr_chain3 pl u l]
      cases dump with
      | none => rfl
      | some d =>
        obtain ⟨du, dpl, dl⟩ := d
        by_cases hr : truthy (firstTruthy [pl, u, l]) <;>
          simp [hr, pyOr_chain3 du dpl dl]

/-- Witness for C6 amended at a concrete mapping token. -/
theorem make_payment_behavior_witness :
    ((student_make_payment emptyDb 7 5000 "tx9" (some tokenW6) 3).1.payments =
      emptyDb.payments ++ [⟨3, 7, "tx9", 5000, "pending"⟩]) ∧
    ((student_make_payment emptyDb 7 5000 "tx9" (some tokenW6) 3).2 =
      .redirect ((resolve_redirect_url tokenW6).getD "")) := by
  have h := make_payment_behavior emptyDb 7 5000 "tx9" (some tokenW6) 3
  exact ⟨h.1, (h.2.2.1 tokenW6 rfl).1 (by decide)⟩

/-- C7: the callback always flashes the generic success message and
redirects to the course list; when the gateway reports an allow-listed
status (`approved`, `completed`, `success`) for the resolved transaction
id and a matching payment and its enrollment exist, the payment is
completed and the enrollment activated; a gateway error is swallowed
with no state change, as is a missing transaction id. -/
theorem callback_reconciliation (g : String → GatewayResult) (db : DB)
    (req : CallbackRequest) :
    ((fedapay_callback g db req).2 = ⟨"student_view_courses", true⟩) ∧
    (∀ tid st p e,
      resolve_callback_tx_id req = some tid → tid ≠ "" →
      g tid = .ok st →
      (st = some "approved" ∨ st = some "completed" ∨ st = some "success") →
      db.payments.find? (fun q => q.transaction_id == tid) = some p →
      db.enrollments.find? (fun x => x.id == p.enrollment_id) = some e →
      (fedapay_callback g db req).1 =
        ⟨setPaymentCompleted db.payments p.id,
          setEnrollmentActive db.enrollments e.id⟩ ∧
      { p with status := "completed" } ∈ (fedapay_callback g db req).1.payments ∧
      { e with status := "active" } ∈ (fedapay_callback g db req).1.enrollments) ∧
    (∀ tid, resolve_callback_tx_id req = some tid → g tid = .err →
      (fedapay_callback g db req).1 = db) ∧
    (truthy (resolve_callback_tx_id req) = false →
      (fedapay_callback g db req).1 = db) := by
  refine ⟨rfl, ?_, ?_, ?_⟩
  · intro tid st p e hres hne hg hst hfp hfe
    have htr : truthy (some tid) = true := by simp [truthy, hne]
    have heq : (fedapay_callback g db req).1 =
        ⟨setPaymentCompleted db.payments p.id,
          setEnrollmentActive db.enrollments e.id⟩ := by
      unfold fedapay_callback
      rw [hres]
      simp [htr, hg, hst, hfp, hfe]
    refine ⟨heq, ?_, ?_⟩
    · rw [heq]
      have hmem : p ∈ db.payments := List.mem_of_find?_eq_some hfp
      have := List.mem_map_of_mem
        (fun q => if q.id = p.id then { q with status := "completed" } else q) hmem
      simpa [setPaymentCompleted] using this
    · rw [heq]
      have hmem : e ∈ db.enrollments := List.mem_of_find?_eq_some hfe
      have := List.mem_map_of_mem
        (fun q => if q.id = e.id then { q with status := "active" } else q) hmem
      simpa [setEnrollmentActive] using this
  · intro tid hres hg
    unfold fedapay_callback
    rw [hres]
    by_cases hne : tid = ""
    · simp [truthy, hne]
    · have htr : truthy (some tid) = true := by simp [truthy, hne]
      simp [htr, hg]
  · intro htr
    unfold fedapay_callback
    simp [htr]

/-- Witness for C7: an approved gateway answer completes payment 1 and
activates enrollment 1, and the response is the generic redirect. -/
theorem callback_reconciliation_witness :
    ((fedapay_callback gatewayW7 dbW7 creqW7).2 =
      ⟨"student_view_courses", true⟩) ∧
    (fedapay_callback gatewayW7 dbW7 creqW7).1 =
      ⟨setPaymentCompleted dbW7.payments 1,
        setEnrollmentActive dbW7.enrollments 1⟩ := by
  have h := callback_reconciliation gatewayW7 dbW7 creqW7
  exact ⟨h.1, (h.2.1 "tx1" (some "approved") ⟨1, 1, "tx1", 5000, "pending"⟩
    ⟨1, "pending"⟩ (by decide) (by decide) rfl (Or.inl rfl) (by decide)
    (by decide)).1⟩

/-- A step that does not touch the enrollment table activates nothing,
so the backing invariant holds vacuously. -/
theorem activation_backed_of_same_enrollments (db0 db1 : DB)
    (h : db1.enrollments = db0.enrollments) : activation_backed db0 db1 := by
  intro e1 h1 hact hnew
  rw [h] at h1
  exact absurd hact (hnew e1 h1 rfl)

/-- A step whose enrollment table is `setEnrollmentActive` at `eid` and
whose payment table holds a completed payment for `eid` satisfies the
backing invariant. -/
theorem activation_backed_setEA (db0 db1 : DB) (eid : Nat)
    (hes : db1.enrollments = setEnrollmentActive db0.enrollments eid)
    (hback : ∃ p ∈ db1.payments, p.enrollment_id = eid ∧ p.status = "completed") :
    activation_backed db0 db1 := by
  intro e1 h1 hact hnew
  rw [hes] at h1
  unfold setEnrollmentActive at h1
  rcases List.mem_map.mp h1 with ⟨e0, he0, heq⟩
  by_cases hid : e0.id = eid
  · obtain ⟨p, hp, hpe, hpc⟩ := hback
    refine ⟨p, hp, ?_, hpc⟩
    rw [hpe, ← heq]
    simp [hid]
  · rw [if_neg hid] at heq
    subst heq
    exact absurd hact (hnew e0 he0 rfl)

/-- C8: in each of the three reconciliation paths — webhook, callback,
manual payment correction — an enrollment is never newly set `active`
without a completed payment for it existing in the resulting state (the
payment write precedes the enrollment write). -/
theorem reconciliation_activation_invariant (hm : String → String → String)
    (env : String) (db : DB) (req : WebhookRequest)
    (g : String → GatewayResult) (creq : CallbackRequest)
    (pid : Nat) (mreq : ManagerUpdateRequest) :
    activation_backed db (fedapay_webhook hm env db req).1 ∧
    activation_backed db (fedapay_callback g db creq).1 ∧
    (∀ db1 resp, manager_update_payment db pid mreq = some (db1, resp) →
      activation_backed db db1) := by
  refine ⟨?_, ?_, ?_⟩
  · by_cases hpost : req.is_post
    swap
    · exact activation_backed_of_same_enrollments db _
        (by simp [fedapay_webhook, hpost])
    by_cases hv : verify_signature_fedapay_v1 hm env req.body req.sig_header
    swap
    · exact activation_backed_of_same_enrollments db _
        (by simp [fedapay_webhook, hpost, hv])
    cases hev : req.event with
    | none =>
      exact activation_backed_of_same_enrollments db _
        (by simp [fedapay_webhook, hpost, hv, hev])
    | some ev =>
      by_cases hsucc : pyOr ev.status (ev.entity.getD ⟨none, none⟩).status =
          some "approved" ∨ ev.name.getD "" = "transaction.approved"
      swap
      · exact activation_backed_of_same_enrollments db _
          (by simp [fedapay_webhook, hpost, hv, hev, hsucc])
      by_cases htr : truthy (pyOr ev.id (ev.entity.getD ⟨none, none⟩).id)
      swap
      · exact activation_backed_of_same_enrollments db _
          (by simp [fedapay_webhook, hpost, hv, hev, hsucc, htr])
      cases hfil : db.payments.filter
          (fun q => q.transaction_id ==
            (pyOr ev.id (ev.entity.getD ⟨none, none⟩).id).getD "") with
      | nil =>
        exact activation_backed_of_same_enrollments db _
          (by simp [fedapay_webhook, hpost, hv, hev, hsucc, htr, hfil])
      | cons p rest =>
        cases rest with
        | cons p2 r2 =>
          exact activation_backed_of_same_enrollments db _
            (by simp [fedapay_webhook, hpost, hv, hev, hsucc, htr, hfil])
        | nil =>
          have hmem : p ∈ db.payments := by
            have : p ∈ db.payments.filter
                (fun q => q.transaction_id ==
                  (pyOr ev.id (ev.entity.getD ⟨none, none⟩).id).getD "") := by
              rw [hfil]
              exact List.mem_singleton.mpr rfl
            exact List.mem_of_mem_filter this
          cases hfind : db.enrollments.find?
              (fun e => e.id == p.enrollment_id) with
          | none =>
            exact activation_backed_of_same_enrollments db _
              (by simp [fedapay_webhook, hpost, hv, hev, hsucc, htr, hfil, hfind])
          | some e =>
            have hid : e.id = p.enrollment_id := by
              have h2 := List.find?_some hfind
              simpa using h2
            have hres : (fedapay_webhook hm env db req).1 =
                ⟨setPaymentCompleted db.payments p.id,
                  setEnrollmentActive db.enrollments e.id⟩ := by
              simp [fedapay_webhook, hpost, hv, hev, hsucc, htr, hfil, hfind]
            rw [hres]
            apply activation_backed_setEA db _ e.id rfl
            refine ⟨{ p with status := "completed" }, ?_, ?_, rfl⟩
            · have := List.mem_map_of_mem
                (fun q => if q.id = p.id then { q with status := "completed" }
                  else q) hmem
              simpa [setPaymentCompleted] using this
            · simpa using hid.symm
  · by_cases htr : truthy (resolve_callback_tx_id creq)
    swap
    · exact activation_backed_of_same_enrollments db _
        (by simp [fedapay_callback, htr])
    cases hg : g ((resolve_callback_tx_id creq).getD "") with
    | err =>
      exact activation_backed_of_same_enrollments db _
        (by simp [fedapay_callback, htr, hg])
    | ok st =>
      by_cases hst : st = some "approved" ∨ st = some "completed" ∨
          st = some "success"
      swap
      · exact activation_backed_of_same_enrollments db _
          (by simp [fedapay_callback, htr, hg, hst])
      cases hfp : db.payments.find?
          (fun q => q.transaction_id == (resolve_callback_tx_id creq).getD "") with
      | none =>
        exact activation_backed_of_same_enrollments db _
          (by simp [fedapay_callback, htr, hg, hst, hfp])
      | some p =>
        cases hfe : db.enrollments.find?
            (fun x => x.id == p.enrollment_id) with
        | none =>
          exact activation_backed_of_same_enrollments db _
            (by simp [fedapay_callback, htr, hg, hst, hfp, hfe])
        | some e =>
          have hid : e.id = p.enrollment_id := by
            have h2 := List.find?_some hfe
            simpa using h2
          have hres : (fedapay_callback g db creq).1 =
              ⟨setPaymentCompleted db.payments p.id,
                setEnrollmentActive db.enrollments e.id⟩ := by
            simp [fedapay_callback, htr, hg, hst, hfp, hfe]
          rw [hres]
          apply activation_backed_setEA db _ e.id rfl
          refine ⟨{ p with status := "completed" }, ?_, ?_, rfl⟩
          · have hmem : p ∈ db.payments := List.mem_of_find?_eq_some hfp
            have := List.mem_map_of_mem
              (fun q => if q.id = p.id then { q with status := "completed" }
                else q) hmem
            simpa [setPaymentCompleted] using this
          · simpa using hid.symm
  · intro db1 resp hres
    cases hfil : db.payments.filter (fun p => p.id == pid) with
    | nil =>
      have hstep : manager_update_payment db pid mreq = none := by
        simp [manager_update_payment, hfil]
      rw [hstep] at hres
      cases hres
    | cons p rest =>
      cases rest with
      | cons p2 r2 =>
        have hstep : manager_update_payment db pid mreq = none := by
          simp [manager_update_payment, hfil]
        rw [hstep] at hres
        cases hres
      | nil =>
        have hpid : p.id = pid := by
          have : p ∈ db.payments.filter (fun q => q.id == pid) := by
            rw [hfil]
            exact List.mem_singleton.mpr rfl
          have h2 := List.of_mem_filter this
          simpa using h2
        have hmem : p ∈ db.payments := by
          have : p ∈ db.payments.filter (fun q => q.id == pid) := by
            rw [hfil]
            exact List.mem_singleton.mpr rfl
          exact List.mem_of_mem_filter this
        by_cases hpf : mreq.is_post ∧ mreq.form_valid
        swap
        · have hstep : manager_update_payment db pid mreq =
              some (db, .renderForm) := by
            simp [manager_update_payment, hfil, hpf]
          rw [hstep] at hres
          simp only [Option.some.injEq, Prod.mk.injEq] at hres
          exact activation_backed_of_same_enrollments db db1
            (by rw [← hres.1])
        by_cases hc : mreq.new_status = "completed"
        swap
        · have hstep : manager_update_payment db pid mreq =
              some (⟨db.payments.map
                (fun q => if q.id = pid then { p with status := mreq.new_status }
                  else q), db.enrollments⟩, .redirectPayments) := by
            simp [manager_update_payment, hfil, hpf, hc]
          rw [hstep] at hres
          simp only [Option.some.injEq, Prod.mk.injEq] at hres
          exact activation_backed_of_same_enrollments db db1
            (by rw [← hres.1])
        cases hfe : db.enrollments.find? (fun e => e.id == p.enrollment_id) with
        | none =>
          have hstep : manager_update_payment db pid mreq = none := by
            simp [manager_update_payment, hfil, hpf, hc, hfe]
          rw [hstep] at hres
          cases hres
        | some e =>
          have hid : e.id = p.enrollment_id := by
            have h2 := List.find?_some hfe
            simpa using h2
          by_cases hact : e.status ≠ "active"
          · have hstep : manager_update_payment db pid mreq =
                some (⟨db.payments.map
                  (fun q => if q.id = pid then { p with status := mreq.new_status }
                    else q), setEnrollmentActive db.enrollments e.id⟩,
                  .redirectPayments) := by
              simp [manager_update_payment, hfil, hpf, hc, hfe, hact]
            rw [hstep] at hres
            simp only [Option.some.injEq, Prod.mk.injEq] at hres
            apply activation_backed_setEA db db1 e.id (by rw [← hres.1])
            rw [← hres.1]
            refine ⟨{ p with status := mreq.new_status }, ?_, ?_, hc⟩
            · have := List.mem_map_of_mem
                (fun q => if q.id = pid then { p with status := mreq.new_status }
                  else q) hmem
              simpa [hpid] using this
            · simpa using hid.symm
          · have hstep : manager_update_payment db pid mreq =
                some (⟨db.payments.map
                  (fun q => if q.id = pid then { p with status := mreq.new_status }
                    else q), db.enrollments⟩, .redirectPayments) := by
              simp [manager_update_payment, hfil, hpf, hc, hfe, hact]
            rw [hstep] at hres
            simp only [Option.some.injEq, Prod.mk.injEq] at hres
            exact activation_backed_of_same_enrollments db db1
              (by rw [← hres.1])

/-- Witness for C8: the webhook path activates enrollment 1 of `dbW8`
and a completed payment for it exists in the result. -/
theorem reconciliation_activation_invariant_witness :
    ∃ p ∈ (fedapay_webhook sampleHm "sek" dbW8 reqW8).1.payments,
      p.enrollment_id = (⟨1, "active"⟩ : Enrollment).id ∧
      p.status = "completed" := by
  have h := (reconciliation_activation_invariant sampleHm "sek" dbW8 reqW8
    gatewayW7 creqW7 1 ⟨true, true, "completed"⟩).1
  exact h ⟨1, "active"⟩ (by decide) rfl (by decide)

/-- Completing the same payment row twice is the same as completing it
once. -/
theorem setPaymentCompleted_idem (l : List Payment) (pid : Nat) :
    setPaymentCompleted (setPaymentCompleted l pid) pid =
      setPaymentCompleted l pid := by
  induction l with
  | nil => rfl
  | cons q t ih =>
    simp only [setPaymentCompleted, List.map_cons] at ih ⊢
    by_cases h : q.id = pid <;> simp [h, ih]

/-- Completing a payment row commutes with filtering by transaction id,
because the update keeps the transaction id. -/
theorem filter_setPaymentCompleted (l : List Payment) (pid : Nat) (tid : String) :
    (setPaymentCompleted l pid).filter (fun p => p.transaction_id == tid) =
      setPaymentCompleted (l.filter (fun p => p.transaction_id == tid)) pid := by
  induction l with
  | nil => rfl
  | cons q t ih =>
    simp only [setPaymentCompleted, List.map_cons, List.filter_cons] at ih ⊢
    by_cases h : q.id = pid <;> by_cases h2 : q.transaction_id = tid <;>
      simp [h, h2, ih]

/-- Activating an enrollment row commutes with `find?` by id, because
the update keeps the id. -/
theorem find?_setEnrollmentActive (l : List Enrollment) (eid tgt : Nat) :
    (setEnrollmentActive l eid).find? (fun e => e.id == tgt) =
      (l.find? (fun e => e.id == tgt)).map
        (fun e => if e.id = eid then { e with status := "active" } else e) := by
  induction l with
  | nil => rfl
  | cons q t ih =>
    simp only [setEnrollmentActive, List.map_cons] at ih ⊢
    by_cases h : q.id = eid
    · by_cases h2 : q.id = tgt
      · have he : eid = tgt := by rw [← h]; exact h2
        simp [h, h2, he, ih, List.find?_cons]
      · have he : ¬ eid = tgt := by rw [← h]; exact h2
        simp [h, h2, he, ih, List.find?_cons]
    · by_cases h2 : q.id = tgt
      · have he : ¬ tgt = eid := fun hx => h (h2.trans hx)
        simp [h, h2, he, ih, List.find?_cons]
      · simp [h, h2, ih, List.find?_cons]

/-- Activating the same enrollment row twice is the same as activating
it once. -/
theorem setEnrollmentActive_idem (l : List Enrollment) (eid : Nat) :
    setEnrollmentActive (setEnrollmentActive l eid) eid =
      setEnrollmentActive l eid := by
  induction l with
  | nil => rfl
  | cons q t ih =>
    simp only [setEnrollmentActive, List.map_cons] at ih ⊢
    by_cases h : q.id = eid <;> simp [h, ih]

/-- C4: delivering the identical webhook request a second time is
idempotent — the second delivery leaves the state exactly as the first
left it and returns the same response (never an error). -/
theorem webhook_idempotent (hm : String → String → String) (env : String)
    (db : DB) (req : WebhookRequest) :
    fedapay_webhook hm env (fedapay_webhook hm env db req).1 req =
      fedapay_webhook hm env db req := by
  by_cases hpost : req.is_post
  swap
  · simp [fedapay_webhook, hpost]
  by_cases hv : verify_signature_fedapay_v1 hm env req.body req.sig_header
  swap
  · simp [fedapay_webhook, hpost, hv]
  cases hev : req.event with
  | none => simp [fedapay_webhook, hpost, hv, hev]
  | some ev =>
    by_cases hsucc : pyOr ev.status (ev.entity.getD ⟨none, none⟩).status =
        some "approved" ∨ ev.name.getD "" = "transaction.approved"
    swap
    · simp [fedapay_webhook, hpost, hv, hev, hsucc]
    by_cases htr : truthy (pyOr ev.id (ev.entity.getD ⟨none, none⟩).id)
    swap
    · simp [fedapay_webhook, hpost, hv, hev, hsucc, htr]
    cases hfil : db.payments.filter
        (fun q => q.transaction_id ==
          (pyOr ev.id (ev.entity.getD ⟨none, none⟩).id).getD "") with
    | nil => simp [fedapay_webhook, hpost, hv, hev, hsucc, htr, hfil]
    | cons p rest =>
      cases rest with
      | cons p2 r2 => simp [fedapay_webhook, hpost, hv, hev, hsucc, htr, hfil]
      | nil =>
        have hfil2 : (setPaymentCompleted db.payments p.id).filter
            (fun q => q.transaction_id ==
              (pyOr ev.id (ev.entity.getD ⟨none, none⟩).id).getD "") =
            [{ p with status := "completed" }] := by
          rw [filter_setPaymentCompleted, hfil]
          simp [setPaymentCompleted]
        cases hfind : db.enrollments.find?
            (fun e => e.id == p.enrollment_id) with
        | none =>
          have hres : fedapay_webhook hm env db req =
              ({ db with payments := setPaymentCompleted db.payments p.id },
                .json 200 "ignored") := by
            simp [fedapay_webhook, hpost, hv, hev, hsucc, htr, hfil, hfind]
          rw [hres]
          simp [fedapay_webhook, hpost, hv, hev, hsucc, htr, hfil2, hfind,
            setPaymentCompleted_idem]
        | some e =>
          have hfind2 : (setEnrollmentActive db.enrollments e.id).find?
              (fun x => x.id == p.enrollment_id) =
              some { e with status := "active" } := by
            rw [find?_setEnrollmentActive, hfind]
            simp
          have hres : fedapay_webhook hm env db req =
              (⟨setPaymentCompleted db.payments p.id,
                setEnrollmentActive db.enrollments e.id⟩,
                .json 200 "received") := by
            simp [fedapay_webhook, hpost, hv, hev, hsucc, htr, hfil, hfind]
          rw [hres]
          simp [fedapay_webhook, hpost, hv, hev, hsucc, htr, hfil2, hfind2,
            setPaymentCompleted_idem, setEnrollmentActive_idem]

end ELearning
